import Mathlib

/-!
Verification of the ThreadLine email-ingestion core (`src-tauri/src`),
as a shallow embedding in Lean 4.

Modelling conventions:
* Rust machine integers (`u32`, `usize`, `i64`) are modelled as `Nat` / `Int`;
  every arithmetic step is within range on the inputs considered (mailbox
  sizes and UID counts are `u32` values, so no overflow or wrap occurs in the
  expressions embedded here), and Rust's saturating-free `usize` subtraction
  only happens under a guard making it exact, matching `Nat` subtraction.
* The `mail_parser` crate is a third-party library: `parse_email` is embedded
  as a function of the header values that the library extracts from the raw
  bytes (`RawMessage`), plus the current Unix timestamp that
  `chrono::Utc::now().timestamp()` would return.  The library itself is a
  pure function of the raw bytes, so "same raw bytes" means the same
  `RawMessage`.
* SQLite tables are lists of rows in insertion order; `fetch_one`/`LIMIT 1`
  without `ORDER BY` picks the first matching row; `id` columns are
  `INTEGER PRIMARY KEY` row ids handed out by a `next…Id` counter.
* Rust's `Vec::sort_by` and SQL `ORDER BY` are stable sorts; they are
  embedded by a structural stable insertion sort (`sortLe`) over the same
  comparator, which produces the same result as any stable sort.
-/

namespace ThreadLine

/-! ## Message parser (`mail/parser.rs`) -/

/-- A header value as returned by the `mail_parser` crate
(`HeaderValue::Text` / `HeaderValue::TextList` / anything else). -/
inductive HeaderValue where
  | none
  | text (s : String)
  | textList (l : List String)
deriving DecidableEq

/-- An address as exposed by `mail_parser::Addr` (`name()` / `address()`). -/
structure Addr where
  name : Option String
  address : Option String
deriving DecidableEq

/-- An attachment MIME part as exposed by the `mail_parser` crate
(`attachment_name()`, `content_type()`, `contents()`). -/
structure AttachPart where
  attachment_name : Option String
  content_type : Option String
  contents : List Nat
deriving DecidableEq

/-- The header fields the `mail_parser` library extracts from the raw bytes.
The library is pure, so parsing the same raw bytes twice yields the same
`RawMessage`. -/
structure RawMessage where
  message_id : Option String
  subject : Option String
  fromAddrs : List Addr
  toAddrs : Option (List Addr)
  ccAddrs : Option (List Addr)
  dateRfc3339 : Option String
  bodyText0 : Option String
  bodyHtml0 : Option String
  attachmentParts : List AttachPart
  in_reply_to : HeaderValue
  references : HeaderValue
deriving DecidableEq

/-- `parser.rs` `ParsedAttachment`. -/
structure ParsedAttachment where
  filename : String
  content_type : String
  size : Nat
  data : List Nat
deriving DecidableEq

/-- `parser.rs` `ParsedEmail` (`from` and `to` are Lean tokens, renamed
`fromAddr` and `toRecipients`). -/
structure ParsedEmail where
  message_id : String
  subject : String
  fromAddr : String
  toRecipients : List String
  cc : List String
  date : String
  body_text : Option String
  body_html : Option String
  attachments : List ParsedAttachment
  in_reply_to : Option String
  references : List String
deriving DecidableEq

/-- `parser.rs` `format_address`. -/
def format_address (addr : Addr) : String :=
  match addr.name with
  | some name =>
    match addr.address with
    | some email => name ++ " <" ++ email ++ ">"
    | Option.none => name
  | Option.none =>
    match addr.address with
    | some email => email
    | Option.none => "Unknown"

/-- The attachment-extraction loop of `parse_email`: parts lacking an
`attachment_name` are skipped; a missing content type defaults to
`application/octet-stream`. -/
def extractAttachments (parts : List AttachPart) : List ParsedAttachment :=
  parts.filterMap fun part =>
    match part.attachment_name with
    | Option.none => Option.none
    | some filename =>
      some { filename := filename
             content_type := (part.content_type).getD "application/octet-stream"
             size := part.contents.length
             data := part.contents }

/-- `parser.rs` `parse_email`, as a function of the library-extracted headers
and the current Unix timestamp (used only to synthesize a missing
Message-ID as `generated-<timestamp>` and a missing date). -/
def parse_email (m : RawMessage) (now : Int) (nowRfc3339 : String) : ParsedEmail :=
  { message_id := (m.message_id).getD ("generated-" ++ toString now)
    subject := (m.subject).getD "(No Subject)"
    fromAddr := ((m.fromAddrs.head?).map format_address).getD "Unknown"
    toRecipients := ((m.toAddrs).map (fun l => l.map format_address)).getD []
    cc := ((m.ccAddrs).map (fun l => l.map format_address)).getD []
    date := (m.dateRfc3339).getD nowRfc3339
    body_text := m.bodyText0
    body_html := m.bodyHtml0
    attachments := extractAttachments m.attachmentParts
    in_reply_to :=
      match m.in_reply_to with
      | HeaderValue.text t => some t
      | HeaderValue.textList (t :: _) => some t
      | _ => Option.none
    references :=
      match m.references with
      | HeaderValue.textList l => l
      | HeaderValue.text t => [t]
      | _ => [] }

/-- `parser.rs` `generate_thread_id`: first References entry, else
In-Reply-To, else the message's own identifier. -/
def generate_thread_id (parsed : ParsedEmail) : String :=
  match parsed.references.head? with
  | some first_ref => first_ref
  | Option.none =>
    match parsed.in_reply_to with
    | some reply_to => reply_to
    | Option.none => parsed.message_id

/-! ## Sync range computation (`mail/sync.rs`, `sync_account` steps 4-6) -/

/-- The range string built in `sync_account` (lines 126-151): `sync_all` is
`max_sync_count >= 999999`; first sync (`last_uid == 0`) fetches `1:*`, or the
newest `max_sync_count` messages via `(total - max_sync_count) + 1 : *`;
incremental sync fetches `last_uid+1 : *`. -/
def sync_range (last_uid : Nat) (total : Nat) (max_sync_count : Nat) : String :=
  if last_uid = 0 then
    if 999999 ≤ max_sync_count then
      "1:*"
    else if max_sync_count < total then
      toString (total - max_sync_count + 1) ++ ":*"
    else
      "1:*"
  else
    toString (last_uid + 1) ++ ":*"

/-- The incremental-cap truncation in `sync_account` (lines 163-172):
`uids.reverse(); uids.truncate(max_sync_count); uids.reverse()` under the
guard `!sync_all && last_uid > 0 && uids.len() > max_sync_count`. -/
def limit_uids (last_uid : Nat) (max_sync_count : Nat) (uids : List Nat) : List Nat :=
  if max_sync_count < 999999 ∧ 0 < last_uid ∧ max_sync_count < uids.length then
    ((uids.reverse.take max_sync_count).reverse)
  else
    uids

/-! ## Subject normalization (`project/classifier.rs`) -/

/-- UTF-8 byte length of a character list (Rust `str::len`). -/
def utf8Len (cs : List Char) : Nat := (cs.map Char.utf8Size).sum

/-- The longest prefix of `cs` whose UTF-8 encoding fits in `maxBytes` bytes.
Rust's `safe_truncate` searches for the last char boundary at or before
`max_bytes`; char boundaries of a string are exactly the cumulative UTF-8
sizes of its char prefixes, so the slice it takes is this prefix. -/
def takeUtf8Bytes (cs : List Char) (maxBytes : Nat) : List Char :=
  match cs with
  | [] => []
  | c :: rest =>
    if c.utf8Size ≤ maxBytes then c :: takeUtf8Bytes rest (maxBytes - c.utf8Size)
    else []

/-- `classifier.rs` `safe_truncate` over the char-list view of the string. -/
def safe_truncate (s : List Char) (max_bytes : Nat) : List Char :=
  if utf8Len s ≤ max_bytes then s else takeUtf8Bytes s max_bytes

/-- Rust `str::trim` (drop whitespace from both ends). -/
def rustTrim (cs : List Char) : List Char :=
  ((cs.dropWhile Char.isWhitespace).reverse.dropWhile Char.isWhitespace).reverse

/-- Rust `str::strip_prefix`: the remainder after the pattern, if the pattern
is a prefix. -/
def stripPfx : List Char → List Char → Option (List Char)
  | [], s => some s
  | _ :: _, [] => Option.none
  | p :: ps, c :: cs => if p = c then stripPfx ps cs else Option.none

/-- The reply/forward marker list of `normalize_subject`. -/
def subjectPrefixes : List (List Char) :=
  ["Re:", "RE:", "Fwd:", "FWD:", "Fw:", "回复:", "转发:"].map String.toList

/-- One iteration of the `normalize_subject` loop body: the first marker in
list order that strips from the trimmed string, if any. -/
def tryStripOne (cs : List Char) : Option (List Char) :=
  subjectPrefixes.findSome? fun p => stripPfx p (rustTrim cs)

/-- The `loop` of `normalize_subject`, with explicit fuel.  Each successful
strip removes a nonempty marker from a trimmed copy, so the length strictly
decreases and `cs.length + 1` units of fuel always reach the fixpoint. -/
def stripLoop : Nat → List Char → List Char
  | 0, cs => cs
  | fuel + 1, cs =>
    match tryStripOne cs with
    | some stripped => stripLoop fuel stripped
    | Option.none => cs

/-- `classifier.rs` `normalize_subject` over the char-list view: repeatedly
strip reply/forward markers, trim, then truncate to 100 bytes on a UTF-8
boundary. -/
def normalize_subject (subject : List Char) : List Char :=
  let afterLoop := stripLoop (subject.length + 1) subject
  let trimmed := rustTrim afterLoop
  safe_truncate trimmed 100

/-! ## Relational store (`storage/database.rs` schema)

Tables are lists of rows in insertion order.  Timestamp columns
(`created_at`, `updated_at`) are omitted: no claim depends on them.  Row ids
are handed out by the `next…Id` counters (SQLite rowids). -/

/-- A row of `accounts` (columns relevant to the embedded operations; the
full column list is `accountsColumns` below). -/
structure AccountRow where
  id : Nat
  email : String
deriving DecidableEq

/-- A row of `projects`. -/
structure ProjectRow where
  id : Nat
  name : String
  status : String
  email_count : Nat
  attachment_count : Nat
deriving DecidableEq

/-- A row of `emails`. -/
structure EmailRow where
  id : Nat
  message_id : String
  account_id : Nat
  thread_id : Option String
  project_id : Option Nat
  subject : Option String
  sender : Option String
  recipients : Option String
  date : Option String
  body_text : Option String
  body_html : Option String
  has_attachments : Bool
  raw_path : Option String
deriving DecidableEq

/-- A row of `attachments`. -/
structure AttachmentRow where
  id : Nat
  email_id : Nat
  filename : String
  file_type : String
  file_size : Nat
  mime_type : String
  file_path : String
  content_hash : String
deriving DecidableEq

/-- A row of `milestones`. -/
structure MilestoneRow where
  id : Nat
  project_id : Option Nat
  email_id : Option Nat
  mtype : Option String
  title : Option String
  date : Option String
deriving DecidableEq

/-- The database state. -/
structure Db where
  accounts : List AccountRow
  projects : List ProjectRow
  emails : List EmailRow
  attachments : List AttachmentRow
  milestones : List MilestoneRow
  nextProjectId : Nat
  nextEmailId : Nat
  nextAttachmentId : Nat
deriving DecidableEq

/-- The column list of the `accounts` table as created in
`storage/database.rs` (there are no migrations anywhere in the repository). -/
def accountsColumns : List String :=
  ["id", "email", "provider", "imap_config", "auth_type", "password",
   "oauth_access_token", "oauth_refresh_token", "oauth_token_expires_at",
   "created_at"]

/-! ## Classifier (`project/classifier.rs`) -/

/-- `SELECT COUNT(*) FROM emails WHERE project_id = ?`. -/
def countEmailsIn (emails : List EmailRow) (pid : Nat) : Nat :=
  (emails.filter fun e => e.project_id == some pid).length

/-- `SELECT COUNT(*) FROM attachments WHERE email_id IN
(SELECT id FROM emails WHERE project_id = ?)`. -/
def countAttachmentsIn (emails : List EmailRow) (atts : List AttachmentRow)
    (pid : Nat) : Nat :=
  (atts.filter fun a =>
    emails.any fun e => e.id == a.email_id && e.project_id == some pid).length

/-- `classifier.rs` `update_project_stats`: authoritative recount of both
counters for the given project. -/
def update_project_stats (db : Db) (project_id : Nat) : Db :=
  { db with projects := db.projects.map fun p =>
      if p.id == project_id then
        { p with email_count := countEmailsIn db.emails project_id
                 attachment_count :=
                   countAttachmentsIn db.emails db.attachments project_id }
      else p }

/-- `classifier.rs` `assign_email_to_project`: set the email's project, then
recompute that project's stats. -/
def assign_email_to_project (db : Db) (email_id project_id : Nat) : Db :=
  update_project_stats
    { db with emails := db.emails.map fun e =>
        if e.id == email_id then { e with project_id := some project_id } else e }
    project_id

/-- `classifier.rs` `find_project_by_thread`:
`SELECT project_id FROM emails WHERE thread_id = ? AND project_id IS NOT NULL
LIMIT 1` (first matching row in table order). -/
def find_project_by_thread (db : Db) (thread_id : String) : Option Nat :=
  (db.emails.find? fun e =>
    e.thread_id == some thread_id && e.project_id.isSome).bind (·.project_id)

/-- Byte-lexicographic order on UTF-8 strings as char lists.  Rust's
`String::cmp` is byte-lexicographic and UTF-8 encoding preserves codepoint
order, so codepoint-lexicographic comparison is the same order. -/
def charListLe : List Char → List Char → Bool
  | [], _ => true
  | _ :: _, [] => false
  | a :: as, b :: bs => if a < b then true else if b < a then false else charListLe as bs

/-- String comparison used for `ORDER BY date` and Rust's `date.cmp`. -/
def dateLe (a b : String) : Bool := charListLe a.toList b.toList

/-- Stable insert for `sortLe`. -/
def insertLe (le : α → α → Bool) (x : α) : List α → List α
  | [] => [x]
  | y :: ys => if le x y then x :: y :: ys else y :: insertLe le x ys

/-- Stable insertion sort.  `Vec::sort_by` and SQL `ORDER BY` are stable
sorts; a stable sort's output is determined by the comparator, so insertion
sort embeds them exactly. -/
def sortLe (le : α → α → Bool) : List α → List α
  | [] => []
  | x :: xs => insertLe le x (sortLe le xs)

/-- Contiguous-substring test on character lists. -/
def isInfixIn (needle : List Char) : List Char → Bool
  | [] => needle.isEmpty
  | c :: rest => needle.isPrefixOf (c :: rest) || isInfixIn needle rest

/-- SQLite `LIKE` is case-insensitive for ASCII; `Char.toLower` lowercases
exactly ASCII letters.  `subject LIKE '%needle%'` on a non-NULL subject is a
case-insensitive substring test.  (`%`/`_` wildcards inside the needle are
not modelled; no claim exercises them.) -/
def likeContains (subject : Option String) (needle : List Char) : Bool :=
  match subject with
  | Option.none => false
  | some s => isInfixIn (needle.map Char.toLower) (s.toList.map Char.toLower)

/-- Sort key for the `emails.date` column. -/
def emailDateKey (e : EmailRow) : String := (e.date).getD ""

/-- `classifier.rs` `find_project_by_subject`: among emails with a project,
dated within the last 30 days (the `datetime('now','-30 days')` cutoff is
abstracted as the `recent` predicate on the date column), whose subject
contains the normalized subject, pick the most recent (`ORDER BY date DESC
LIMIT 1`). -/
def find_project_by_subject (recent : Option String → Bool) (db : Db)
    (normalized : List Char) : Option Nat :=
  let candidates := db.emails.filter fun e =>
    e.project_id.isSome && recent e.date && likeContains e.subject normalized
  ((sortLe (fun a b => dateLe (emailDateKey b) (emailDateKey a)) candidates).head?).bind
    (·.project_id)

/-- `classifier.rs` `create_project_for_email`: a new active project named by
the normalized subject, or a sender-derived fallback; both counters start
at 0.  Returns the fresh rowid. -/
def create_project_for_email (db : Db) (email : EmailRow) : Nat × Db :=
  let project_name :=
    match email.subject with
    | some s => (normalize_subject s.toList).asString
    | Option.none => "Project from " ++ (email.sender).getD "Unknown"
  let pid := db.nextProjectId
  (pid,
   { db with
       projects := db.projects ++
         [{ id := pid, name := project_name, status := "active",
            email_count := 0, attachment_count := 0 }]
       nextProjectId := pid + 1 })

/-- Steps 4-5 of `classify_email`: subject-similarity match (only when the
email has a subject), else create a new project; in both cases assign. -/
def classify_subject_or_create (recent : Option String → Bool) (db : Db)
    (email_id : Nat) (email : EmailRow) : Nat × Db :=
  match email.subject with
  | some subject =>
    let normalized := normalize_subject subject.toList
    match find_project_by_subject recent db normalized with
    | some pid => (pid, assign_email_to_project db email_id pid)
    | Option.none =>
      let created := create_project_for_email db email
      (created.1, assign_email_to_project created.2 email_id created.1)
  | Option.none =>
    let created := create_project_for_email db email
    (created.1, assign_email_to_project created.2 email_id created.1)

/-- `classifier.rs` `classify_email`: (1) fetch the email (`fetch_one`
fails when absent); (2) if already assigned return the existing project
unchanged; (3) reuse a project via the thread key; (4) via subject
similarity; (5) else create a new project. -/
def classify_email (recent : Option String → Bool) (db : Db) (email_id : Nat) :
    Except String (Nat × Db) :=
  match db.emails.find? (fun e => e.id == email_id) with
  | Option.none => Except.error "email not found"
  | some email =>
    match email.project_id with
    | some project_id => Except.ok (project_id, db)
    | Option.none =>
      match email.thread_id with
      | some thread_id =>
        match find_project_by_thread db thread_id with
        | some pid => Except.ok (pid, assign_email_to_project db email_id pid)
        | Option.none => Except.ok (classify_subject_or_create recent db email_id email)
      | Option.none => Except.ok (classify_subject_or_create recent db email_id email)

/-- A sequence of classify calls, each one's failure tolerated (logged and
skipped), as in `classify_all_unassigned` and the sync loop. -/
def classifySeq (recent : Option String → Bool) (db : Db) (eids : List Nat) : Db :=
  eids.foldl
    (fun d i =>
      match classify_email recent d i with
      | Except.ok r => r.2
      | Except.error _ => d)
    db

/-! ## Sync engine persistence and loop (`mail/sync.rs`) -/

/-- `sync.rs` `extract_file_extension` via Rust `Path::extension`: the text
after the last `.` of the final path component, absent when the component has
no `.` or only a leading one; `"unknown"` when absent. -/
def rustExtension (comp : List Char) : Option (List Char) :=
  match comp with
  | [] => Option.none
  | _ :: rest =>
    if rest.contains '.' then some ((comp.reverse.takeWhile (· ≠ '.')).reverse)
    else Option.none

/-- `sync.rs` `extract_file_extension`. -/
def extract_file_extension (filename : String) : String :=
  let comp := (filename.toList.splitOn '/').getLastD []
  match rustExtension comp with
  | some ext => ext.asString
  | Option.none => "unknown"

/-- `sync.rs` `sanitize_filename`: path-unsafe characters become `_`. -/
def sanitize_filename (filename : String) : String :=
  (filename.toList.map fun c =>
    if c = '/' ∨ c = '\\' ∨ c = ':' ∨ c = '*' ∨ c = '?' ∨ c = '"' ∨ c = '<' ∨
       c = '>' ∨ c = '|' then '_' else c).asString

/-- `serde_json::to_string` of a string list (escaping of embedded quotes is
not modelled; no claim depends on the rendered JSON). -/
def jsonStringArray (l : List String) : String :=
  "[" ++ String.intercalate "," (l.map fun s => "\"" ++ s ++ "\"") ++ "]"

/-- The row inserted by `save_email`: `project_id` is not in the INSERT's
column list, hence NULL; `thread_id` is always the derived key; `raw_path`
stores the UID. -/
def save_email_row (next_id account_id : Nat) (uid : Nat) (parsed : ParsedEmail) :
    EmailRow :=
  { id := next_id
    message_id := parsed.message_id
    account_id := account_id
    thread_id := some (generate_thread_id parsed)
    project_id := Option.none
    subject := some parsed.subject
    sender := some parsed.fromAddr
    recipients := some (jsonStringArray parsed.toRecipients)
    date := some parsed.date
    body_text := parsed.body_text
    body_html := parsed.body_html
    has_attachments := !parsed.attachments.isEmpty
    raw_path := some (toString uid) }

/-- `sync.rs` `save_email`: `INSERT OR REPLACE` keyed on the unique
`message_id` column (the conflicting row, if any, is deleted; the new row
gets a fresh rowid). -/
def save_email (db : Db) (account_id uid : Nat) (parsed : ParsedEmail) : Db :=
  { db with
      emails := (db.emails.filter fun e => !(e.message_id == parsed.message_id)) ++
        [save_email_row db.nextEmailId account_id uid parsed]
      nextEmailId := db.nextEmailId + 1 }

/-- `sync.rs` `get_email_id_by_message_id`. -/
def get_email_id_by_message_id (db : Db) (message_id : String) (account_id : Nat) :
    Option Nat :=
  (db.emails.find? fun e =>
    e.message_id == message_id && e.account_id == account_id).map (·.id)

/-- `sync.rs` `save_attachment`, parameterized by the SHA-256 function
(`sha`); the file-system write is summarized by the stored relative path. -/
def save_attachment (sha : List Nat → String) (db : Db) (account_id : Nat)
    (message_id : String) (attachment : ParsedAttachment) : Db :=
  match db.emails.find? fun e =>
      e.message_id == message_id && e.account_id == account_id with
  | Option.none => db
  | some e =>
    let file_type := extract_file_extension attachment.filename
    let safe_filename := sanitize_filename attachment.filename
    let file_path := file_type ++ "/" ++ toString account_id ++ "/" ++
      toString e.id ++ "/" ++ safe_filename
    { db with
        attachments := db.attachments ++
          [{ id := db.nextAttachmentId, email_id := e.id,
             filename := attachment.filename, file_type := file_type,
             file_size := attachment.size, mime_type := attachment.content_type,
             file_path := file_path, content_hash := sha attachment.data }]
        nextAttachmentId := db.nextAttachmentId + 1 }

/-- The per-message pipeline of `sync_account` (lines 186-224): save the
email, look up its rowid, classify (a classification failure is only
logged), then save the attachments.  Note the order: classification — which
recomputes project counters — runs before the attachments are inserted. -/
def processMessage (sha : List Nat → String) (recent : Option String → Bool)
    (db : Db) (account_id uid : Nat) (parsed : ParsedEmail) : Db :=
  let db1 := save_email db account_id uid parsed
  match get_email_id_by_message_id db1 parsed.message_id account_id with
  | Option.none => db1
  | some email_id =>
    let db2 :=
      match classify_email recent db1 email_id with
      | Except.ok r => r.2
      | Except.error _ => db1
    parsed.attachments.foldl
      (fun d att => save_attachment sha d account_id parsed.message_id att) db2

/-- `events/mod.rs` `SyncStatus`. -/
inductive SyncStatus where
  | starting
  | syncing
  | completed
  | failed
deriving DecidableEq

/-- `events/mod.rs` `SyncProgressEvent`. -/
structure SyncProgressEvent where
  account_id : Nat
  current : Nat
  total : Nat
  status : SyncStatus
deriving DecidableEq

/-- `sync.rs` `SyncProgress` (the returned value; `status` is a string). -/
structure SyncProgress where
  account_id : Nat
  current : Nat
  total : Nat
  status : String
deriving DecidableEq

/-- The fetch loop of `sync_account` (lines 176-242): for each UID emit a
Syncing event (current = 1-based index, total = batch size), then run the
per-message pipeline; any per-message failure — here a failing
`fetch`/parse, covering `conn.fetch_email` and `parse_email` errors — is
skipped and the loop continues with the next UID. -/
def syncLoop (sha : List Nat → String) (recent : Option String → Bool)
    (fetch : Nat → Except String ParsedEmail) (account_id : Nat) :
    Db → Nat → Nat → List Nat → Db × List SyncProgressEvent
  | db, _, _, [] => (db, [])
  | db, current, total, uid :: rest =>
    let ev : SyncProgressEvent :=
      { account_id := account_id, current := current + 1, total := total,
        status := SyncStatus.syncing }
    let db1 :=
      match fetch uid with
      | Except.ok parsed => processMessage sha recent db account_id uid parsed
      | Except.error _ => db
    let res := syncLoop sha recent fetch account_id db1 (current + 1) total rest
    (res.1, ev :: res.2)

/-- `sync_account` after range computation: process the batch, then emit the
final Completed event with `current = total = uids.len()` and return the
matching `SyncProgress` (lines 244-258). -/
def syncRun (sha : List Nat → String) (recent : Option String → Bool)
    (fetch : Nat → Except String ParsedEmail) (account_id : Nat) (db : Db)
    (uids_to_sync : List Nat) : Db × List SyncProgressEvent × SyncProgress :=
  let synced_count := uids_to_sync.length
  let loopRes := syncLoop sha recent fetch account_id db 0 synced_count uids_to_sync
  (loopRes.1,
   loopRes.2 ++
     [{ account_id := account_id, current := synced_count, total := synced_count,
        status := SyncStatus.completed }],
   { account_id := account_id, current := synced_count, total := synced_count,
     status := "completed" })

/-! ## Timeline assembler (`repository/project.rs`, `get_timeline`) -/

/-- `project/mod.rs` `Attachment` as shown in the timeline (the
floating-point `format_file_size` rendering is not modelled; the raw byte
size is carried instead). -/
structure AttachmentInfo where
  name : String
  file_type : String
  size : Nat
deriving DecidableEq

/-- `repository/project.rs` `RawEmail`. -/
structure RawEmail where
  id : Nat
  thread_id : Option String
  date : String
  sender : String
  body : String
  subject : String
deriving DecidableEq

/-- `project/mod.rs` `TimelineEvent` (Milestone / Email / Thread). -/
inductive TimelineEvent where
  | milestone (id : String) (date : String) (title : String) (status : String)
  | email (id : String) (date : String) (sender : String) (content : String)
      (subject : String) (attachments : Option (List AttachmentInfo))
  | thread (id : String) (date : String) (children : List TimelineEvent)

/-- The representative date used as the final sort key. -/
def eventDate : TimelineEvent → String
  | TimelineEvent.milestone _ date _ _ => date
  | TimelineEvent.email _ date _ _ _ _ => date
  | TimelineEvent.thread _ date _ => date

/-- `get_email_attachments` mapped through `.ok()`: an empty attachment list
is an error, so it becomes `none` (absence) rather than an empty list. -/
def attachmentsFor (db : Db) (email_id : Nat) : Option (List AttachmentInfo) :=
  let l := (db.attachments.filter fun a => a.email_id == email_id).map fun a =>
    ({ name := a.filename, file_type := a.file_type, size := a.file_size } :
      AttachmentInfo)
  if l.isEmpty then Option.none else some l

/-- An email's timeline event (`EmailEvent` with id `e<rowid>`). -/
def emailEvent (db : Db) (e : RawEmail) : TimelineEvent :=
  TimelineEvent.email ("e" ++ toString e.id) e.date e.sender e.body e.subject
    (attachmentsFor db e.id)

/-- First-seen deduplication: the order in which thread keys appear.  (The
source iterates a `HashMap` whose order is unspecified; the final sort makes
the output independent of that order except between equal-date events, which
no claim constrains.) -/
def firstSeen : List String → List String
  | [] => []
  | x :: xs => x :: (firstSeen xs).filter fun y => !(y == x)

/-- Descending-date comparator on raw emails (`b.date.cmp(&a.date)`). -/
def rawDateDesc (a b : RawEmail) : Bool := dateLe b.date a.date

/-- The milestone query of `get_timeline` (`ORDER BY date DESC`) mapped to
events (`m<rowid>`). -/
def timelineMilestoneEvents (db : Db) (project_id : Nat) : List TimelineEvent :=
  (sortLe (fun a b => dateLe ((b.date).getD "") ((a.date).getD ""))
    (db.milestones.filter fun m => m.project_id == some project_id)).map fun m =>
    TimelineEvent.milestone ("m" ++ toString m.id) ((m.date).getD "")
      ((m.title).getD "") ((m.mtype).getD "")

/-- The email query of `get_timeline` (`ORDER BY date DESC`) mapped to
`RawEmail` values. -/
def timelineRawEmails (db : Db) (project_id : Nat) : List RawEmail :=
  (sortLe (fun a b => dateLe (emailDateKey b) (emailDateKey a))
    (db.emails.filter fun e => e.project_id == some project_id)).map fun e =>
    ({ id := e.id, thread_id := e.thread_id, date := (e.date).getD "",
       sender := (e.sender).getD "", body := (e.body_text).getD "",
       subject := (e.subject).getD "" } : RawEmail)

/-- One thread group's event: member messages date-descending, the thread's
own date being its most recent member's. -/
def threadEventOf (db : Db) (threaded : List RawEmail) (tid : String) :
    TimelineEvent :=
  let thread_emails := sortLe rawDateDesc
    (threaded.filter fun e => e.thread_id == some tid)
  TimelineEvent.thread tid (((thread_emails.head?).map (·.date)).getD "")
    (thread_emails.map (emailEvent db))

/-- The unsorted event list of `get_timeline`: milestones, then thread
groups, then standalone (NULL thread key) emails. -/
def timelineEventsUnsorted (db : Db) (project_id : Nat) : List TimelineEvent :=
  let rawEmails := timelineRawEmails db project_id
  let threaded := rawEmails.filter fun e => e.thread_id.isSome
  timelineMilestoneEvents db project_id ++
    (firstSeen (threaded.filterMap (·.thread_id))).map (threadEventOf db threaded) ++
    (rawEmails.filter fun e => !e.thread_id.isSome).map (emailEvent db)

/-- `repository/project.rs` `get_timeline`: assemble milestones, thread
groups and standalone emails, then one stable sort of everything by
representative date descending. -/
def get_timeline (db : Db) (project_id : Nat) : List TimelineEvent :=
  sortLe (fun a b => dateLe (eventDate b) (eventDate a))
    (timelineEventsUnsorted db project_id)

/-! ## Reset command (`commands/sync.rs`, `reset_account_sync`) -/

/-- `error.rs` / `commands` `ErrorResponse` (code and message). -/
structure ErrorResponse where
  code : String
  message : String
deriving DecidableEq

/-- `commands/sync.rs` `reset_account_sync`, returning the resulting state
together with the command's result.  Steps in source order: (1) look up the
account (absent → NOT_FOUND, state untouched); (2) delete the account's
emails; (3) delete projects whose id is in `SELECT DISTINCT project_id FROM
emails WHERE account_id = ?` — evaluated on the state after step 2; (4)
`UPDATE accounts SET last_synced_uid = 0`, which SQLite rejects because the
`accounts` table created in `storage/database.rs` has no such column. -/
def reset_account_sync (db : Db) (email : String) : Db × Except ErrorResponse Unit :=
  match db.accounts.find? fun a => a.email == email with
  | Option.none =>
    (db, Except.error { code := "NOT_FOUND", message := "Account not found" })
  | some account =>
    let db1 := { db with emails := db.emails.filter fun e => !(e.account_id == account.id) }
    let pids := (db1.emails.filter fun e => e.account_id == account.id).filterMap
      (·.project_id)
    let db2 := { db1 with projects := db1.projects.filter fun p => !(pids.contains p.id) }
    if accountsColumns.contains "last_synced_uid" then
      (db2, Except.ok ())
    else
      (db2, Except.error
        { code := "DB_ERROR"
          message := "Failed to reset sync state: no such column: last_synced_uid" })

/-! ## Predicates used to state the claims -/

/-- Some email row carries the given message identifier. -/
def hasMsg (emails : List EmailRow) (mid : String) : Prop :=
  ∃ e ∈ emails, e.message_id = mid

/-- Every email row has a non-NULL thread key. -/
def allThreaded (emails : List EmailRow) : Prop :=
  ∀ e ∈ emails, e.thread_id.isSome = true

/-- Every project's message counter equals the live count of messages
assigned to it. -/
def emailCountsAccurate (db : Db) : Prop :=
  ∀ p ∈ db.projects, p.email_count = countEmailsIn db.emails p.id

/-- Constructor test: is this a top-level standalone message event? -/
def isEmailEvent : TimelineEvent → Bool
  | TimelineEvent.email _ _ _ _ _ _ => true
  | _ => false

/-- The message identifier of a successful fetch-and-parse. -/
def midOf : Except String ParsedEmail → Option String
  | Except.ok parsed => some parsed.message_id
  | Except.error _ => Option.none

/-- The message identifiers of the UIDs whose fetch-and-parse succeeds. -/
def successMids (fetch : Nat → Except String ParsedEmail) (uids : List Nat) :
    List String :=
  uids.filterMap fun u => midOf (fetch u)

/-! ## Concrete instances used in the claim theorems and witnesses -/

/-- A raw message carrying no Message-ID, no References and no In-Reply-To
header. -/
def headerlessMessage : RawMessage :=
  { message_id := Option.none, subject := Option.none, fromAddrs := [],
    toAddrs := Option.none, ccAddrs := Option.none, dateRfc3339 := Option.none,
    bodyText0 := Option.none, bodyHtml0 := Option.none, attachmentParts := [],
    in_reply_to := HeaderValue.none, references := HeaderValue.none }

/-- A raw message whose Message-ID header is present. -/
def identifiedMessage : RawMessage :=
  { headerlessMessage with message_id := some "<id1@example.com>" }

/-- A store holding one account and nothing else. -/
def oneAccountDb : Db :=
  { accounts := [{ id := 1, email := "a@example.com" }], projects := [],
    emails := [], attachments := [], milestones := [],
    nextProjectId := 1, nextEmailId := 1, nextAttachmentId := 1 }

/-- A parsed email with a single PDF attachment and no thread references. -/
def pdfEmail : ParsedEmail :=
  { message_id := "<m1@x>", subject := "Hello", fromAddr := "A <a@x>",
    toRecipients := [], cc := [], date := "2024-01-02T00:00:00Z",
    body_text := some "hi", body_html := Option.none,
    attachments := [{ filename := "f.pdf", content_type := "application/pdf",
                      size := 3, data := [1, 2, 3] }],
    in_reply_to := Option.none, references := [] }

/-- The store after the sync pipeline processes `pdfEmail` as UID 7. -/
def pdfAfter : Db :=
  processMessage (fun _ => "hash") (fun _ => true) oneAccountDb 1 7 pdfEmail

/-- A fetch oracle that fails UID 42 with the not-found error and yields an
attachment-free message for every other UID. -/
def fetchMissing42 : Nat → Except String ParsedEmail := fun uid =>
  if uid = 42 then Except.error "Email not found"
  else Except.ok { pdfEmail with
    message_id := "<m" ++ toString uid ++ "@x>", attachments := [] }

/-- The sync run over UIDs 41, 42, 43 against `fetchMissing42`. -/
def run42 : Db × List SyncProgressEvent × SyncProgress :=
  syncRun (fun _ => "hash") (fun _ => true) fetchMissing42 1 oneAccountDb [41, 42, 43]

/-- A store whose project 1 holds a two-message thread (days 5 and 2), one
milestone (day 3) and one standalone message (day 1). -/
def timelineDb : Db :=
  { accounts := [],
    projects := [{ id := 1, name := "P", status := "active",
                   email_count := 3, attachment_count := 0 }],
    emails :=
      [{ id := 1, message_id := "<t1@x>", account_id := 1, thread_id := some "T",
         project_id := some 1, subject := some "s", sender := some "A",
         recipients := Option.none, date := some "2024-01-05", body_text := some "b5",
         body_html := Option.none, has_attachments := false, raw_path := Option.none },
       { id := 2, message_id := "<t2@x>", account_id := 1, thread_id := some "T",
         project_id := some 1, subject := some "s", sender := some "B",
         recipients := Option.none, date := some "2024-01-02", body_text := some "b2",
         body_html := Option.none, has_attachments := false, raw_path := Option.none },
       { id := 3, message_id := "<s1@x>", account_id := 1, thread_id := Option.none,
         project_id := some 1, subject := some "solo", sender := some "C",
         recipients := Option.none, date := some "2024-01-01", body_text := some "b1",
         body_html := Option.none, has_attachments := false, raw_path := Option.none }],
    attachments := [],
    milestones :=
      [{ id := 1, project_id := some 1, email_id := Option.none,
         mtype := some "signed", title := some "M", date := some "2024-01-03" }],
    nextProjectId := 2, nextEmailId := 4, nextAttachmentId := 1 }

/-- A store with one account owning one email assigned to project 1. -/
def resetDb : Db :=
  { accounts := [{ id := 1, email := "a@example.com" }],
    projects := [{ id := 1, name := "P", status := "active",
                   email_count := 1, attachment_count := 0 }],
    emails := [{ id := 1, message_id := "<m1@x>", account_id := 1,
                 thread_id := some "T", project_id := some 1, subject := some "s",
                 sender := Option.none, recipients := Option.none, date := Option.none,
                 body_text := Option.none, body_html := Option.none,
                 has_attachments := false, raw_path := some "7" }],
    attachments := [], milestones := [],
    nextProjectId := 2, nextEmailId := 2, nextAttachmentId := 1 }

/-! ## Theorems -/

/-- C1: range computation for a never-synced account (cursor 0): `1:*` under
the sync-all sentinel, `<total - cap + 1>:*` when the mailbox exceeds the
cap, else `1:*`; for a synced account (cursor > 0): `<cursor+1>:*`. -/
theorem C1_sync_range (cursor total cap : Nat) :
    (cursor = 0 → 999999 ≤ cap → sync_range cursor total cap = "1:*") ∧
    (cursor = 0 → cap < 999999 → cap < total →
      sync_range cursor total cap = toString (total - cap + 1) ++ ":*") ∧
    (cursor = 0 → cap < 999999 → total ≤ cap → sync_range cursor total cap = "1:*") ∧
    (0 < cursor → sync_range cursor total cap = toString (cursor + 1) ++ ":*") := by
  refine ⟨?_, ?_, ?_, ?_⟩
  · intro h0 hs
    simp [sync_range, h0, hs]
  · intro h0 hs ht
    simp [sync_range, h0, Nat.not_le.mpr hs, ht]
  · intro h0 hs ht
    simp [sync_range, h0, Nat.not_le.mpr hs, Nat.not_lt.mpr ht]
  · intro hpos
    simp [sync_range, Nat.pos_iff_ne_zero.mp hpos]

/-- C1 witness: cursor 0, mailbox 10000, cap 100 gives `9901:*`; cursor 500
gives `501:*`; the sentinel gives `1:*`. -/
theorem C1_sync_range_witness :
    sync_range 0 10000 100 = "9901:*" ∧ sync_range 500 10000 100 = "501:*" ∧
    sync_range 0 10000 999999 = "1:*" ∧ sync_range 0 50 100 = "1:*" := by
  refine ⟨?_, ?_, ?_, ?_⟩
  · rw [(C1_sync_range 0 10000 100).2.1 rfl (by decide) (by decide)]; rfl
  · rw [(C1_sync_range 500 10000 100).2.2.2 (by decide)]; rfl
  · exact (C1_sync_range 0 10000 999999).1 rfl (by decide)
  · exact (C1_sync_range 0 50 100).2.2.1 rfl (by decide) (by decide)

/-- `(l.reverse.take n).reverse` is the suffix of `l` of length `min n
l.length`. -/
theorem reverse_take_reverse (l : List Nat) (n : Nat) :
    (l.reverse.take n).reverse = l.drop (l.length - n) := by
  rw [show (l : List Nat) = l.reverse.reverse from (List.reverse_reverse l).symm,
    List.reverse_take]
  simp

/-- C8: when cursor > 0, sync-all is off and the enumerated ascending UID
list exceeds the cap, the processed list is exactly the last `cap` elements
(the largest UIDs), still ascending. -/
theorem C8_incremental_cap_truncation (last_uid cap : Nat) (uids : List Nat)
    (hl : 0 < last_uid) (hc : cap < 999999) (hlen : cap < uids.length)
    (hasc : List.Pairwise (· < ·) uids) :
    limit_uids last_uid cap uids = uids.drop (uids.length - cap) ∧
    (limit_uids last_uid cap uids).length = cap ∧
    List.Pairwise (· < ·) (limit_uids last_uid cap uids) := by
  have hguard : cap < 999999 ∧ 0 < last_uid ∧ cap < uids.length := ⟨hc, hl, hlen⟩
  have heq : limit_uids last_uid cap uids = uids.drop (uids.length - cap) := by
    rw [limit_uids, if_pos hguard, reverse_take_reverse]
  refine ⟨heq, ?_, ?_⟩
  · rw [heq, List.length_drop]
    omega
  · rw [heq]
    exact hasc.sublist (List.drop_sublist _ _)

/-- C8 witness: UIDs 1..6 with cap 3 and cursor 500 process exactly
[4, 5, 6]. -/
theorem C8_incremental_cap_truncation_witness :
    limit_uids 500 3 [1, 2, 3, 4, 5, 6] = [4, 5, 6] ∧
    (limit_uids 500 3 [1, 2, 3, 4, 5, 6]).length = 3 ∧
    List.Pairwise (· < ·) (limit_uids 500 3 [1, 2, 3, 4, 5, 6]) := by
  have h := C8_incremental_cap_truncation 500 3 [1, 2, 3, 4, 5, 6]
    (by decide) (by decide) (by decide) (by decide)
  exact ⟨by rw [h.1]; decide, h.2.1, h.2.2⟩

/-- The UTF-8 length of the longest byte-bounded prefix is within the
bound. -/
theorem utf8Len_takeUtf8Bytes (cs : List Char) (maxBytes : Nat) :
    utf8Len (takeUtf8Bytes cs maxBytes) ≤ maxBytes := by
  induction cs generalizing maxBytes with
  | nil => simp [takeUtf8Bytes, utf8Len]
  | cons c rest ih =>
    rw [takeUtf8Bytes]
    by_cases h : c.utf8Size ≤ maxBytes
    · rw [if_pos h]
      have := ih (maxBytes - c.utf8Size)
      simp only [utf8Len, List.map_cons, List.sum_cons] at *
      omega
    · rw [if_neg h]
      simp [utf8Len]

/-- `takeUtf8Bytes` returns a prefix of its input. -/
theorem takeUtf8Bytes_append (cs : List Char) (maxBytes : Nat) :
    ∃ t, cs = takeUtf8Bytes cs maxBytes ++ t := by
  induction cs generalizing maxBytes with
  | nil => exact ⟨[], rfl⟩
  | cons c rest ih =>
    rw [takeUtf8Bytes]
    by_cases h : c.utf8Size ≤ maxBytes
    · rw [if_pos h]
      obtain ⟨t, ht⟩ := ih (maxBytes - c.utf8Size)
      exact ⟨t, by rw [List.cons_append, ← ht]⟩
    · rw [if_neg h]
      exact ⟨c :: rest, rfl⟩

/-- C9: `"Re: RE: Fwd: Quarterly Report"` normalizes to exactly
`"Quarterly Report"`; and every normalized subject is at most 100 bytes of
UTF-8 and is a character-boundary prefix of the trimmed, marker-stripped
subject. -/
theorem C9_subject_normalization :
    (normalize_subject "Re: RE: Fwd: Quarterly Report".toList).asString =
      "Quarterly Report" ∧
    ∀ s : List Char,
      utf8Len (normalize_subject s) ≤ 100 ∧
      ∃ t, rustTrim (stripLoop (s.length + 1) s) = normalize_subject s ++ t := by
  refine ⟨by decide, fun s => ⟨?_, ?_⟩⟩
  · show utf8Len (safe_truncate (rustTrim (stripLoop (s.length + 1) s)) 100) ≤ 100
    rw [safe_truncate]
    by_cases h : utf8Len (rustTrim (stripLoop (s.length + 1) s)) ≤ 100
    · rwa [if_pos h]
    · rw [if_neg h]
      exact utf8Len_takeUtf8Bytes _ _
  · show ∃ t, rustTrim (stripLoop (s.length + 1) s) =
      safe_truncate (rustTrim (stripLoop (s.length + 1) s)) 100 ++ t
    rw [safe_truncate]
    by_cases h : utf8Len (rustTrim (stripLoop (s.length + 1) s)) ≤ 100
    · rw [if_pos h]
      exact ⟨[], by simp⟩
    · rw [if_neg h]
      exact takeUtf8Bytes_append _ _

/-- C6: classifying an already-assigned email returns its existing project
id and leaves the whole store — assignments and all project counters —
unchanged. -/
theorem C6_classification_idempotent (recent : Option String → Bool) (db : Db)
    (email_id : Nat) (email : EmailRow) (project_id : Nat)
    (hfind : db.emails.find? (fun e => e.id == email_id) = some email)
    (hassigned : email.project_id = some project_id) :
    classify_email recent db email_id = Except.ok (project_id, db) := by
  rw [classify_email, hfind]
  simp [hassigned]

/-- C6 witness: classifying email 1 of `resetDb` (already in project 1)
returns project 1 and the unchanged store. -/
theorem C6_classification_idempotent_witness :
    classify_email (fun _ => true) resetDb 1 = Except.ok (1, resetDb) := by
  exact C6_classification_idempotent (fun _ => true) resetDb 1
    { id := 1, message_id := "<m1@x>", account_id := 1,
      thread_id := some "T", project_id := some 1, subject := some "s",
      sender := Option.none, recipients := Option.none, date := Option.none,
      body_text := Option.none, body_html := Option.none,
      has_attachments := false, raw_path := some "7" }
    1 (by decide) rfl

/-- C7: the reset command does not delete the account's projects (the
project-selection subquery runs after the emails were already deleted) and
then fails on the cursor update (the `accounts` table has no
`last_synced_uid` column); a non-existent account yields NOT_FOUND with the
state unchanged. -/
theorem C7_reset_account_sync_bug :
    (reset_account_sync resetDb "a@example.com").1.projects = resetDb.projects ∧
    (reset_account_sync resetDb "a@example.com").1.emails = [] ∧
    (reset_account_sync resetDb "a@example.com").2 =
      Except.error { code := "DB_ERROR"
                     message := "Failed to reset sync state: no such column: last_synced_uid" } ∧
    reset_account_sync resetDb "missing@example.com" =
      (resetDb, Except.error { code := "NOT_FOUND", message := "Account not found" }) := by
  refine ⟨by decide, by decide, by rfl, by rfl⟩

/-- C2 counterexample: a message with no Message-ID, no References and no
In-Reply-To, parsed from the same raw bytes at Unix seconds 0 and 1, gets
two different thread keys — re-parsing is not always stable. -/
theorem C2_counterexample :
    generate_thread_id (parse_email headerlessMessage 0 "date") ≠
      generate_thread_id (parse_email headerlessMessage 1 "date") := by
  decide

/-- C3 counterexample: pushing one email with one attachment through the
per-message sync pipeline leaves its project's attachment counter at 0 while
the live count of attachments of the project's messages is 1 (classification
recomputes counters before the attachment row is inserted). -/
theorem C3_counterexample :
    pdfAfter.projects.map (fun p => (p.id, p.email_count, p.attachment_count)) =
      [(1, 1, 0)] ∧
    countAttachmentsIn pdfAfter.emails pdfAfter.attachments 1 = 1 := by
  refine ⟨by decide, by decide⟩

/-- C4 counterexample: over UIDs 41, 42, 43 where fetching 42 fails with a
not-found error, only two messages are processed but the final progress
event still reports Completed with current = total = 3 — the reported count
does not reflect only successfully processed messages. -/
theorem C4_counterexample :
    run42.1.emails.map (fun e => e.message_id) = ["<m41@x>", "<m43@x>"] ∧
    run42.2.1.getLast? = some
      { account_id := 1, current := 3, total := 3, status := SyncStatus.completed } ∧
    run42.2.2 = { account_id := 1, current := 3, total := 3, status := "completed" } := by
  refine ⟨by decide, by decide, by decide⟩

/-- C2 (amended): thread-key precedence — first References entry, else
In-Reply-To, else the message's own identifier — holds for every parsed
message; and re-parsing the same raw bytes yields the same thread key
whenever the Message-ID header is present, or the message carries References
or In-Reply-To.  (For a message with none of these the key is the
synthesized `generated-<timestamp>`, which depends on the parse time — see
the counterexample.) -/
theorem C2_thread_key_precedence (p : ParsedEmail) (m : RawMessage)
    (t₁ t₂ : Int) (d₁ d₂ : String)
    (h : m.message_id.isSome = true ∨ (parse_email m t₁ d₁).references ≠ [] ∨
      (parse_email m t₁ d₁).in_reply_to.isSome = true) :
    (∀ r rest, p.references = r :: rest → generate_thread_id p = r) ∧
    (p.references = [] → ∀ r, p.in_reply_to = some r → generate_thread_id p = r) ∧
    (p.references = [] → p.in_reply_to = Option.none →
      generate_thread_id p = p.message_id) ∧
    generate_thread_id (parse_email m t₁ d₁) = generate_thread_id (parse_email m t₂ d₂) := by
  refine ⟨?_, ?_, ?_, ?_⟩
  · intro r rest hr
    rw [generate_thread_id, hr]
    rfl
  · intro hr r hirt
    rw [generate_thread_id, hr, hirt]
    rfl
  · intro hr hirt
    rw [generate_thread_id, hr, hirt]
    rfl
  · have hrefs : (parse_email m t₂ d₂).references = (parse_email m t₁ d₁).references := rfl
    have hirt : (parse_email m t₂ d₂).in_reply_to = (parse_email m t₁ d₁).in_reply_to := rfl
    rw [generate_thread_id, generate_thread_id, hrefs, hirt]
    cases hhead : (parse_email m t₁ d₁).references.head? with
    | some r => rfl
    | none =>
      cases hi : (parse_email m t₁ d₁).in_reply_to with
      | some r => rfl
      | none =>
        rcases h with hmid | hr | hi2
        · cases hm : m.message_id with
          | some mid =>
            show (parse_email m t₁ d₁).message_id = (parse_email m t₂ d₂).message_id
            simp [parse_email, hm]
          | none => rw [hm] at hmid; exact absurd hmid (by simp)
        · exact absurd (List.head?_eq_none_iff.mp hhead) hr
        · rw [hi] at hi2; exact absurd hi2 (by simp)

/-- C2 witness: a message whose Message-ID header is present keeps the same
thread key when re-parsed at Unix seconds 0 and 5. -/
theorem C2_thread_key_precedence_witness :
    generate_thread_id (parse_email identifiedMessage 0 "d1") =
      generate_thread_id (parse_email identifiedMessage 5 "d2") :=
  (C2_thread_key_precedence (parse_email identifiedMessage 0 "d1") identifiedMessage
    0 5 "d1" "d2" (Or.inl (by decide))).2.2.2

/-- `charListLe` on cons heads: strictly smaller head, or equal heads and
le tails. -/
theorem charListLe_cons_iff (a b : Char) (as bs : List Char) :
    charListLe (a :: as) (b :: bs) = true ↔
      a < b ∨ (a = b ∧ charListLe as bs = true) := by
  rw [charListLe]
  rcases lt_trichotomy a b with h | h | h
  · simp [h]
  · simp [h, lt_irrefl]
  · simp [lt_asymm h, h, ne_of_gt h]

/-- `charListLe` is reflexive. -/
theorem charListLe_refl : ∀ a : List Char, charListLe a a = true
  | [] => rfl
  | c :: cs => (charListLe_cons_iff c c cs cs).mpr (Or.inr ⟨rfl, charListLe_refl cs⟩)

/-- `charListLe` is total. -/
theorem charListLe_total : ∀ a b : List Char, charListLe a b = true ∨ charListLe b a = true
  | [], _ => Or.inl rfl
  | _ :: _, [] => Or.inr rfl
  | a :: as, b :: bs => by
    rcases lt_trichotomy a b with h | h | h
    · exact Or.inl ((charListLe_cons_iff a b as bs).mpr (Or.inl h))
    · subst h
      rcases charListLe_total as bs with h2 | h2
      · exact Or.inl ((charListLe_cons_iff a a as bs).mpr (Or.inr ⟨rfl, h2⟩))
      · exact Or.inr ((charListLe_cons_iff a a bs as).mpr (Or.inr ⟨rfl, h2⟩))
    · exact Or.inr ((charListLe_cons_iff b a bs as).mpr (Or.inl h))

/-- `charListLe` is transitive. -/
theorem charListLe_trans : ∀ {a b c : List Char}, charListLe a b = true →
    charListLe b c = true → charListLe a c = true
  | [], _, _, _, _ => rfl
  | _ :: _, [], _, h, _ => by exact absurd h (by simp [charListLe])
  | _ :: _, _ :: _, [], _, h => by exact absurd h (by simp [charListLe])
  | a :: as, b :: bs, c :: cs, h1, h2 => by
    rcases (charListLe_cons_iff a b as bs).mp h1 with hab | ⟨hab, h1'⟩
    · rcases (charListLe_cons_iff b c bs cs).mp h2 with hbc | ⟨hbc, _⟩
      · exact (charListLe_cons_iff a c as cs).mpr (Or.inl (lt_trans hab hbc))
      · exact (charListLe_cons_iff a c as cs).mpr (Or.inl (hbc ▸ hab))
    · subst hab
      rcases (charListLe_cons_iff a c bs cs).mp h2 with hbc | ⟨hbc, h2'⟩
      · exact (charListLe_cons_iff a c as cs).mpr (Or.inl hbc)
      · exact (charListLe_cons_iff a c as cs).mpr
          (Or.inr ⟨hbc, charListLe_trans h1' h2'⟩)

/-- `dateLe` is reflexive. -/
theorem dateLe_refl (a : String) : dateLe a a = true := charListLe_refl _

/-- `dateLe` is total. -/
theorem dateLe_total (a b : String) : dateLe a b = true ∨ dateLe b a = true :=
  charListLe_total _ _

/-- `dateLe` is transitive. -/
theorem dateLe_trans {a b c : String} (h1 : dateLe a b = true)
    (h2 : dateLe b c = true) : dateLe a c = true := charListLe_trans h1 h2

/-- Membership in a stable insert. -/
theorem mem_insertLe (le : α → α → Bool) (x : α) :
    ∀ (l : List α) (y : α), y ∈ insertLe le x l ↔ y = x ∨ y ∈ l
  | [], y => by simp [insertLe]
  | z :: zs, y => by
    rw [insertLe]
    by_cases h : le x z = true
    · rw [if_pos h]
      simp only [List.mem_cons]
    · rw [if_neg h]
      simp only [List.mem_cons, mem_insertLe le x zs y]
      tauto

/-- Membership in the stable sort. -/
theorem mem_sortLe (le : α → α → Bool) :
    ∀ (l : List α) (y : α), y ∈ sortLe le l ↔ y ∈ l
  | [], y => by simp [sortLe]
  | x :: xs, y => by
    rw [sortLe, mem_insertLe le x (sortLe le xs) y, mem_sortLe le xs y]
    simp

/-- Stable insert preserves sortedness of a total transitive comparator. -/
theorem pairwise_insertLe (le : α → α → Bool)
    (htot : ∀ a b, le a b = true ∨ le b a = true)
    (htrans : ∀ a b c, le a b = true → le b c = true → le a c = true) (x : α) :
    ∀ l : List α, l.Pairwise (fun a b => le a b = true) →
      (insertLe le x l).Pairwise (fun a b => le a b = true)
  | [], _ => by simp [insertLe]
  | y :: ys, hl => by
    rw [insertLe]
    rcases List.pairwise_cons.mp hl with ⟨hy, hys⟩
    by_cases h : le x y = true
    · rw [if_pos h]
      refine List.pairwise_cons.mpr ⟨?_, hl⟩
      intro z hz
      rcases List.mem_cons.mp hz with rfl | hz
      · exact h
      · exact htrans x y z h (hy z hz)
    · rw [if_neg h]
      refine List.pairwise_cons.mpr ⟨?_, pairwise_insertLe le htot htrans x ys hys⟩
      intro z hz
      rcases (mem_insertLe le x ys z).mp hz with rfl | hz
      · exact (htot z y).resolve_left h
      · exact hy z hz

/-- The stable sort of a total transitive comparator is sorted. -/
theorem pairwise_sortLe (le : α → α → Bool)
    (htot : ∀ a b, le a b = true ∨ le b a = true)
    (htrans : ∀ a b c, le a b = true → le b c = true → le a c = true) :
    ∀ l : List α, (sortLe le l).Pairwise (fun a b => le a b = true)
  | [] => by simp [sortLe]
  | x :: xs =>
    pairwise_insertLe le htot htrans x (sortLe le xs)
      (pairwise_sortLe le htot htrans xs)

/-- Members of `firstSeen l` are members of `l`. -/
theorem mem_firstSeen : ∀ (l : List String) (x : String), x ∈ firstSeen l → x ∈ l
  | [], x, h => by simp [firstSeen] at h
  | y :: ys, x, h => by
    rw [firstSeen] at h
    rcases List.mem_cons.mp h with rfl | h2
    · exact List.mem_cons_self _ _
    · exact List.mem_cons_of_mem _ (mem_firstSeen ys x (List.mem_of_mem_filter h2))

/-- A thread group's event has the date of its most recent member, and every
member is no newer. -/
theorem threadEventOf_spec (db : Db) (threaded : List RawEmail) (tid : String)
    (hne : ∃ e ∈ threaded, e.thread_id = some tid) :
    ∀ d children, threadEventOf db threaded tid = TimelineEvent.thread tid d children →
      (∃ c ∈ children, eventDate c = d) ∧
      ∀ c ∈ children, dateLe (eventDate c) d = true := by
  intro d children heq
  obtain ⟨e, he, hetid⟩ := hne
  have hgroup : e ∈ threaded.filter fun e => e.thread_id == some tid :=
    List.mem_filter.mpr ⟨he, by simp [hetid]⟩
  have hsortedmem : e ∈ sortLe rawDateDesc
      (threaded.filter fun e => e.thread_id == some tid) :=
    (mem_sortLe _ _ _).mpr hgroup
  have hsorted : (sortLe rawDateDesc
      (threaded.filter fun e => e.thread_id == some tid)).Pairwise
        (fun a b => rawDateDesc a b = true) :=
    pairwise_sortLe rawDateDesc
      (fun a b => dateLe_total b.date a.date)
      (fun _ _ _ h1 h2 => dateLe_trans h2 h1) _
  rw [threadEventOf] at heq
  cases hs : sortLe rawDateDesc (threaded.filter fun e => e.thread_id == some tid) with
  | nil => rw [hs] at hsortedmem; exact absurd hsortedmem (by simp)
  | cons hd tl =>
    rw [hs] at heq hsorted
    have hd' : d = hd.date := by
      have := congrArg eventDate heq
      simpa [eventDate] using this.symm
    have hch : children = (hd :: tl).map (emailEvent db) := by
      cases heq
      rfl
    subst hd'
    subst hch
    constructor
    · exact ⟨emailEvent db hd, List.mem_map_of_mem _ (List.mem_cons_self _ _), rfl⟩
    · intro c hc
      obtain ⟨e', he', hc'⟩ := List.mem_map.mp hc
      subst hc'
      show dateLe e'.date hd.date = true
      rcases List.mem_cons.mp he' with rfl | he'
      · exact dateLe_refl _
      · exact (List.pairwise_cons.mp hsorted).1 e' he'

/-- C5: the timeline is sorted by each event's representative date
descending; every thread event's date is its most recent member's date; and
the day-5 thread / day-3 milestone / day-1 standalone example comes back in
exactly that order. -/
theorem C5_timeline_ordering (db : Db) (project_id : Nat) :
    List.Pairwise (fun a b => dateLe (eventDate b) (eventDate a) = true)
      (get_timeline db project_id) ∧
    (∀ ev ∈ get_timeline db project_id, ∀ tid d children,
      ev = TimelineEvent.thread tid d children →
        (∃ c ∈ children, eventDate c = d) ∧
        ∀ c ∈ children, dateLe (eventDate c) d = true) ∧
    get_timeline timelineDb 1 =
      [TimelineEvent.thread "T" "2024-01-05"
         [TimelineEvent.email "e1" "2024-01-05" "A" "b5" "s" Option.none,
          TimelineEvent.email "e2" "2024-01-02" "B" "b2" "s" Option.none],
       TimelineEvent.milestone "m1" "2024-01-03" "M" "signed",
       TimelineEvent.email "e3" "2024-01-01" "C" "b1" "solo" Option.none] := by
  refine ⟨?_, ?_, by rfl⟩
  · exact pairwise_sortLe _
      (fun a b => dateLe_total (eventDate b) (eventDate a))
      (fun _ _ _ h1 h2 => dateLe_trans h2 h1) _
  · intro ev hev tid d children heq
    have hev' : ev ∈ timelineEventsUnsorted db project_id :=
      (mem_sortLe _ _ _).mp hev
    rw [timelineEventsUnsorted] at hev'
    rcases List.mem_append.mp hev' with h1 | h2
    · rcases List.mem_append.mp h1 with hm | ht
      · obtain ⟨m, _, hm'⟩ := List.mem_map.mp hm
        rw [heq] at hm'
        exact absurd hm' (by simp)
      · obtain ⟨tid0, htid0, ht'⟩ := List.mem_map.mp ht
        have hne : ∃ e ∈ (timelineRawEmails db project_id).filter
            (fun e => e.thread_id.isSome), e.thread_id = some tid0 := by
          have := mem_firstSeen _ _ htid0
          obtain ⟨e, he, he2⟩ := List.mem_filterMap.mp this
          exact ⟨e, he, he2⟩
        have htid : tid0 = tid := by
          rw [heq] at ht'
          rw [threadEventOf] at ht'
          exact (TimelineEvent.thread.injEq _ _ _ _ _ _).mp ht' |>.1
        subst htid
        rw [heq] at ht'
        exact threadEventOf_spec db _ tid0 hne d children ht'
    · obtain ⟨e, _, he'⟩ := List.mem_map.mp h2
      rw [heq] at he'
      exact absurd he' (by simp [emailEvent])

/-- C5 witness: in the example timeline, the thread event's children carry
date 2024-01-05 at the newest member and no member is newer. -/
theorem C5_timeline_ordering_witness :
    (∃ c ∈ [TimelineEvent.email "e1" "2024-01-05" "A" "b5" "s" Option.none,
            TimelineEvent.email "e2" "2024-01-02" "B" "b2" "s" Option.none],
        eventDate c = "2024-01-05") ∧
    ∀ c ∈ [TimelineEvent.email "e1" "2024-01-05" "A" "b5" "s" Option.none,
           TimelineEvent.email "e2" "2024-01-02" "B" "b2" "s" Option.none],
      dateLe (eventDate c) "2024-01-05" = true := by
  have h := C5_timeline_ordering timelineDb 1
  refine h.2.1 (TimelineEvent.thread "T" "2024-01-05"
      [TimelineEvent.email "e1" "2024-01-05" "A" "b5" "s" Option.none,
       TimelineEvent.email "e2" "2024-01-02" "B" "b2" "s" Option.none]) ?_
    "T" "2024-01-05" _ rfl
  rw [h.2.2]
  exact List.mem_cons_self _ _

/-- Assignment changes exactly the designated email's project column. -/
theorem assign_email_to_project_emails (db : Db) (eid pid : Nat) :
    (assign_email_to_project db eid pid).emails =
      db.emails.map fun e =>
        if e.id == eid then { e with project_id := some pid } else e := rfl

/-- Assignment leaves the attachments table unchanged. -/
theorem assign_email_to_project_attachments (db : Db) (eid pid : Nat) :
    (assign_email_to_project db eid pid).attachments = db.attachments := rfl

/-- Steps 4-5 of classification always end in an assignment to some project,
over a store with the same emails and attachments whose other projects are
the original ones. -/
theorem classify_subject_or_create_shape (recent : Option String → Bool)
    (db : Db) (eid : Nat) (email : EmailRow) :
    ∃ pid dbX, classify_subject_or_create recent db eid email =
        (pid, assign_email_to_project dbX eid pid) ∧
      dbX.emails = db.emails ∧ dbX.attachments = db.attachments ∧
      ∀ q ∈ dbX.projects, q.id ≠ pid → q ∈ db.projects := by
  rw [classify_subject_or_create]
  cases hs : email.subject with
  | none =>
    dsimp only
    refine ⟨db.nextProjectId, (create_project_for_email db email).2, rfl, rfl, rfl, ?_⟩
    intro q hq hne
    rcases List.mem_append.mp hq with h | h
    · exact h
    · rw [List.mem_singleton.mp h] at hne
      exact absurd rfl hne
  | some subject =>
    dsimp only
    cases hf : find_project_by_subject recent db (normalize_subject subject.toList) with
    | some pid =>
      exact ⟨pid, db, rfl, rfl, rfl, fun q hq _ => hq⟩
    | none =>
      refine ⟨db.nextProjectId, (create_project_for_email db email).2, rfl, rfl, rfl, ?_⟩
      intro q hq hne
      rcases List.mem_append.mp hq with h | h
      · exact h
      · rw [List.mem_singleton.mp h] at hne
        exact absurd rfl hne

/-- A successful classification either returns the store unchanged
(already-assigned email) or assigns a NULL-project email found by id. -/
theorem classify_email_ok_cases (recent : Option String → Bool) (db : Db)
    (eid pid : Nat) (db' : Db)
    (h : classify_email recent db eid = Except.ok (pid, db')) :
    db' = db ∨
    ∃ dbX email, db' = assign_email_to_project dbX eid pid ∧
      dbX.emails = db.emails ∧ dbX.attachments = db.attachments ∧
      (∀ q ∈ dbX.projects, q.id ≠ pid → q ∈ db.projects) ∧
      db.emails.find? (fun e => e.id == eid) = some email ∧
      email.project_id = Option.none := by
  rw [classify_email] at h
  cases hfind : db.emails.find? (fun e => e.id == eid) with
  | none => rw [hfind] at h; exact absurd h (by simp)
  | some email =>
    rw [hfind] at h
    dsimp only at h
    cases hpid : email.project_id with
    | some p0 =>
      rw [hpid] at h
      dsimp only at h
      have h1 := (Except.ok.injEq _ _).mp h
      exact Or.inl (congrArg Prod.snd h1).symm
    | none =>
      rw [hpid] at h
      dsimp only at h
      have fromSoc : (Except.ok (classify_subject_or_create recent db eid email) :
            Except String (Nat × Db)) = Except.ok (pid, db') →
          db' = db ∨
          ∃ dbX email', db' = assign_email_to_project dbX eid pid ∧
            dbX.emails = db.emails ∧ dbX.attachments = db.attachments ∧
            (∀ q ∈ dbX.projects, q.id ≠ pid → q ∈ db.projects) ∧
            some email = some email' ∧
            email'.project_id = Option.none := by
        intro hh
        obtain ⟨pidX, dbX, heq, he, ha, hp⟩ :=
          classify_subject_or_create_shape recent db eid email
        rw [heq] at hh
        have h2 := (Except.ok.injEq _ _).mp hh
        have hpid2 : pidX = pid := congrArg Prod.fst h2
        have hdb2 : assign_email_to_project dbX eid pidX = db' := congrArg Prod.snd h2
        subst hpid2
        exact Or.inr ⟨dbX, email, hdb2.symm, he, ha, hp, rfl, hpid⟩
      cases hth : email.thread_id with
      | some tid =>
        rw [hth] at h
        dsimp only at h
        cases hfp : find_project_by_thread db tid with
        | some pid0 =>
          rw [hfp] at h
          dsimp only at h
          have h2 := (Except.ok.injEq _ _).mp h
          have hpid2 : pid0 = pid := congrArg Prod.fst h2
          have hdb2 : assign_email_to_project db eid pid0 = db' := congrArg Prod.snd h2
          subst hpid2
          exact Or.inr ⟨db, email, hdb2.symm, rfl, rfl, fun q hq _ => hq, rfl, hpid⟩
        | none => rw [hfp] at h; dsimp only at h; exact fromSoc h
      | none => rw [hth] at h; dsimp only at h; exact fromSoc h

/-- Reassigning an email that previously had no project does not change any
other project's live message count. -/
theorem countEmailsIn_map_assign (emails : List EmailRow) (eid pid q : Nat)
    (hq : q ≠ pid)
    (hnone : ∀ e ∈ emails, e.id = eid → e.project_id = Option.none) :
    countEmailsIn (emails.map fun e =>
      if e.id == eid then { e with project_id := some pid } else e) q =
      countEmailsIn emails q := by
  induction emails with
  | nil => rfl
  | cons e rest ih =>
    have ih' := ih fun x hx => hnone x (List.mem_cons_of_mem _ hx)
    simp only [countEmailsIn, beq_iff_eq] at ih' ⊢
    by_cases h : (e.id == eid) = true
    · have hepid : e.project_id = Option.none :=
        hnone e (List.mem_cons_self _ _) (by simpa using h)
      have heq : e.id = eid := by simpa using h
      have hq' : pid ≠ q := fun hh => hq hh.symm
      simp [List.filter_cons, heq, hepid, hq', ih']
    · have hne : ¬ e.id = eid := by simpa using h
      by_cases h2 : e.project_id = some q
      · simp [List.filter_cons, hne, h2, ih']
      · simp [List.filter_cons, hne, h2, ih']

/-- After an assignment, every project row is consistent with the live
message counts, provided the other projects were consistent before and the
assigned email previously had no project. -/
theorem assign_accurate (db : Db) (eid pid : Nat)
    (hacc : ∀ q ∈ db.projects, q.id ≠ pid →
      q.email_count = countEmailsIn db.emails q.id)
    (hnone : ∀ e ∈ db.emails, e.id = eid → e.project_id = Option.none) :
    emailCountsAccurate (assign_email_to_project db eid pid) := by
  intro p hp
  obtain ⟨q, hq, hfq⟩ := List.mem_map.mp hp
  by_cases h : (q.id == pid) = true
  · rw [if_pos h] at hfq
    have hqid : q.id = pid := by simpa using h
    rw [← hfq]
    show countEmailsIn (assign_email_to_project db eid pid).emails pid =
      countEmailsIn (assign_email_to_project db eid pid).emails q.id
    rw [hqid]
  · rw [if_neg h] at hfq
    have hne : q.id ≠ pid := by simpa using h
    rw [← hfq]
    rw [assign_email_to_project_emails]
    rw [countEmailsIn_map_assign db.emails eid pid q.id hne hnone]
    exact hacc q hq hne

/-- A successful classification preserves consistency of all message
counters (the classifier recounts the touched project and cannot desync any
other, since it only ever assigns an email that had no project). -/
theorem classify_email_ok_accurate (recent : Option String → Bool) (db : Db)
    (eid pid : Nat) (db' : Db)
    (hnodup : (db.emails.map fun e => e.id).Nodup)
    (hacc : emailCountsAccurate db)
    (h : classify_email recent db eid = Except.ok (pid, db')) :
    emailCountsAccurate db' := by
  rcases classify_email_ok_cases recent db eid pid db' h with rfl |
    ⟨dbX, email, rfl, he, _, hp, hfind, hpid⟩
  · exact hacc
  · have hmem := List.mem_of_find?_eq_some hfind
    have heid : email.id = eid := by simpa using List.find?_some hfind
    have hnone : ∀ e ∈ dbX.emails, e.id = eid → e.project_id = Option.none := by
      rw [he]
      intro e hee hid
      have heq : e = email :=
        List.inj_on_of_nodup_map hnodup hee hmem (hid.trans heid.symm)
      rw [heq, hpid]
    refine assign_accurate dbX eid pid (fun q hq hne => ?_) hnone
    rw [he]
    exact hacc q (hp q hq hne)

/-- A successful classification does not change the email id column. -/
theorem classify_email_ok_ids (recent : Option String → Bool) (db : Db)
    (eid pid : Nat) (db' : Db)
    (h : classify_email recent db eid = Except.ok (pid, db')) :
    db'.emails.map (fun e => e.id) = db.emails.map fun e => e.id := by
  rcases classify_email_ok_cases recent db eid pid db' h with rfl |
    ⟨dbX, email, rfl, he, _, _, _, _⟩
  · rfl
  · rw [assign_email_to_project_emails, he, List.map_map]
    refine List.map_congr_left fun e _ => ?_
    by_cases hc : (e.id == eid) = true <;> simp [Function.comp, hc]

/-- Any sequence of classify calls keeps every project's message counter
equal to its live count. -/
theorem classifySeq_accurate (recent : Option String → Bool) :
    ∀ (eids : List Nat) (db : Db),
      (db.emails.map fun e => e.id).Nodup → emailCountsAccurate db →
      emailCountsAccurate (classifySeq recent db eids)
  | [], _, _, hacc => hacc
  | i :: rest, db, hnodup, hacc => by
    rw [classifySeq, List.foldl_cons]
    cases hc : classify_email recent db i with
    | error e =>
      exact classifySeq_accurate recent rest db hnodup hacc
    | ok r =>
      obtain ⟨pid, db'⟩ := r
      have hnodup' : (db'.emails.map fun e => e.id).Nodup := by
        rw [classify_email_ok_ids recent db i pid db' hc]
        exact hnodup
      exact classifySeq_accurate recent rest db' hnodup'
        (classify_email_ok_accurate recent db i pid db' hnodup hacc hc)

/-- Every assignment recomputes the assigned project's two counters from the
live tables. -/
theorem assign_recomputes (db : Db) (eid pid : Nat) :
    ∀ p ∈ (assign_email_to_project db eid pid).projects, p.id = pid →
      p.email_count = countEmailsIn (assign_email_to_project db eid pid).emails pid ∧
      p.attachment_count = countAttachmentsIn
        (assign_email_to_project db eid pid).emails
        (assign_email_to_project db eid pid).attachments pid := by
  intro p hp hpid
  obtain ⟨q, hq, hfq⟩ := List.mem_map.mp hp
  by_cases h : (q.id == pid) = true
  · rw [if_pos h] at hfq
    rw [← hfq]
    exact ⟨rfl, rfl⟩
  · rw [if_neg h] at hfq
    subst hfq
    exact absurd hpid (by simpa using h)

/-- C3 (amended): after any sequence of classify operations, every project's
message counter equals the live count of messages assigned to it (given
unique email row ids and initially consistent counters); and every
assignment recomputes both counters of the assigned project from scratch.
The attachment counter, however, is only guaranteed at assignment time: the
sync pipeline saves attachments after classification, so a project's
attachment counter can undercount the live attachment total until the next
assignment recounts it (see the counterexample). -/
theorem C3_project_counters (recent : Option String → Bool) (db : Db)
    (eids : List Nat)
    (hnodup : (db.emails.map fun e => e.id).Nodup)
    (hacc : emailCountsAccurate db) :
    emailCountsAccurate (classifySeq recent db eids) ∧
    ∀ (db' : Db) (eid pid : Nat),
      ∀ p ∈ (assign_email_to_project db' eid pid).projects, p.id = pid →
        p.email_count = countEmailsIn (assign_email_to_project db' eid pid).emails pid ∧
        p.attachment_count = countAttachmentsIn
          (assign_email_to_project db' eid pid).emails
          (assign_email_to_project db' eid pid).attachments pid :=
  ⟨classifySeq_accurate recent eids db hnodup hacc,
   fun db' eid pid => assign_recomputes db' eid pid⟩

/-- C3 witness: the one-email store with consistent counters stays
consistent through a classify call. -/
theorem C3_project_counters_witness :
    ((resetDb.emails.map fun e => e.id).Nodup ∧ emailCountsAccurate resetDb) ∧
    emailCountsAccurate (classifySeq (fun _ => true) resetDb [1]) := by
  refine ⟨⟨by decide, ?_⟩, ?_⟩
  · unfold emailCountsAccurate
    decide
  · exact (C3_project_counters (fun _ => true) resetDb [1] (by decide)
      (by unfold emailCountsAccurate; decide)).1

/-- Saving an attachment row does not touch the emails table. -/
theorem save_attachment_emails (sha : List Nat → String) (db : Db) (aid : Nat)
    (mid : String) (att : ParsedAttachment) :
    (save_attachment sha db aid mid att).emails = db.emails := by
  rw [save_attachment]
  cases db.emails.find? fun e => e.message_id == mid && e.account_id == aid <;> rfl

/-- Folding attachment saves does not touch the emails table. -/
theorem save_attachments_fold_emails (sha : List Nat → String) (aid : Nat)
    (mid : String) :
    ∀ (atts : List ParsedAttachment) (db : Db),
      (atts.foldl (fun d att => save_attachment sha d aid mid att) db).emails =
        db.emails
  | [], _ => rfl
  | a :: as, db => by
    rw [List.foldl_cons,
      save_attachments_fold_emails sha aid mid as (save_attachment sha db aid mid a),
      save_attachment_emails]

/-- After the per-message pipeline, the emails table is the saved table —
old rows minus any `message_id` conflict, plus the freshly inserted row —
with at most the project column of one row rewritten by classification. -/
theorem processMessage_emails (sha : List Nat → String)
    (recent : Option String → Bool) (db : Db) (aid uid : Nat)
    (parsed : ParsedEmail) :
    ∃ f : EmailRow → EmailRow,
      (∀ e, (f e).message_id = e.message_id ∧ (f e).thread_id = e.thread_id) ∧
      (processMessage sha recent db aid uid parsed).emails =
        ((db.emails.filter fun e => !(e.message_id == parsed.message_id)) ++
          [save_email_row db.nextEmailId aid uid parsed]).map f := by
  rw [processMessage]
  cases hg : get_email_id_by_message_id (save_email db aid uid parsed)
      parsed.message_id aid with
  | none => exact ⟨id, fun e => ⟨rfl, rfl⟩, (List.map_id _).symm⟩
  | some eid =>
    dsimp only
    cases hc : classify_email recent (save_email db aid uid parsed) eid with
    | error e =>
      refine ⟨id, fun e => ⟨rfl, rfl⟩, ?_⟩
      rw [save_attachments_fold_emails, List.map_id]
      rfl
    | ok r =>
      obtain ⟨pid, db'⟩ := r
      dsimp only
      rcases classify_email_ok_cases recent (save_email db aid uid parsed) eid pid db' hc
        with rfl | ⟨dbX, email, rfl, he, _, _, _, _⟩
      · refine ⟨id, fun e => ⟨rfl, rfl⟩, ?_⟩
        rw [save_attachments_fold_emails, List.map_id]
        rfl
      · refine ⟨fun e => if e.id == eid then { e with project_id := some pid } else e,
          fun e => ?_, ?_⟩
        · by_cases h : (e.id == eid) = true <;> simp [h]
        · rw [save_attachments_fold_emails, assign_email_to_project_emails, he]
          rfl

/-- The per-message pipeline leaves a row carrying the processed message's
identifier. -/
theorem processMessage_hasMsg_new (sha : List Nat → String)
    (recent : Option String → Bool) (db : Db) (aid uid : Nat)
    (parsed : ParsedEmail) :
    hasMsg (processMessage sha recent db aid uid parsed).emails
      parsed.message_id := by
  obtain ⟨f, hf, heq⟩ := processMessage_emails sha recent db aid uid parsed
  rw [heq]
  refine ⟨f (save_email_row db.nextEmailId aid uid parsed),
    List.mem_map_of_mem f (List.mem_append_right _ (List.mem_singleton.mpr rfl)), ?_⟩
  rw [(hf _).1]
  rfl

/-- The per-message pipeline keeps every row whose message identifier
differs from the processed message's. -/
theorem processMessage_hasMsg_preserved (sha : List Nat → String)
    (recent : Option String → Bool) (db : Db) (aid uid : Nat)
    (parsed : ParsedEmail) (mid : String) (hne : mid ≠ parsed.message_id)
    (hm : hasMsg db.emails mid) :
    hasMsg (processMessage sha recent db aid uid parsed).emails mid := by
  obtain ⟨f, hf, heq⟩ := processMessage_emails sha recent db aid uid parsed
  obtain ⟨e, he, hemid⟩ := hm
  rw [heq]
  refine ⟨f e, List.mem_map_of_mem f (List.mem_append_left _
    (List.mem_filter.mpr ⟨he, ?_⟩)), by rw [(hf e).1, hemid]⟩
  simp [hemid, hne]

/-- A successful fetch contributes its message id to `successMids`. -/
theorem mem_successMids (fetch : Nat → Except String ParsedEmail)
    (uids : List Nat) (v : Nat) (hv : v ∈ uids) (q : ParsedEmail)
    (hq : fetch v = Except.ok q) : q.message_id ∈ successMids fetch uids :=
  List.mem_filterMap.mpr ⟨v, hv, by rw [hq]; rfl⟩

/-- The sync loop keeps a present message id that no later success
shadows. -/
theorem syncLoop_hasMsg_preserved (sha : List Nat → String)
    (recent : Option String → Bool) (fetch : Nat → Except String ParsedEmail)
    (aid : Nat) :
    ∀ (uids : List Nat) (db : Db) (cur tot : Nat) (mid : String),
      hasMsg db.emails mid →
      (∀ u ∈ uids, ∀ p, fetch u = Except.ok p → p.message_id ≠ mid) →
      hasMsg (syncLoop sha recent fetch aid db cur tot uids).1.emails mid
  | [], _, _, _, _, hm, _ => hm
  | u :: rest, db, cur, tot, mid, hm, hno => by
    rw [syncLoop]
    cases hf : fetch u with
    | error e =>
      exact syncLoop_hasMsg_preserved sha recent fetch aid rest db (cur + 1) tot mid
        hm fun v hv p hp => hno v (List.mem_cons_of_mem _ hv) p hp
    | ok p =>
      exact syncLoop_hasMsg_preserved sha recent fetch aid rest _ (cur + 1) tot mid
        (processMessage_hasMsg_preserved sha recent db aid u p mid
          (fun hh => hno u (List.mem_cons_self _ _) p hf hh.symm) hm)
        fun v hv q hq => hno v (List.mem_cons_of_mem _ hv) q hq

/-- Every UID whose fetch-and-parse succeeds ends up stored, no matter which
other UIDs in the batch fail (successful message ids assumed distinct). -/
theorem syncLoop_hasMsg (sha : List Nat → String)
    (recent : Option String → Bool) (fetch : Nat → Except String ParsedEmail)
    (aid : Nat) :
    ∀ (uids : List Nat) (db : Db) (cur tot : Nat),
      (successMids fetch uids).Nodup →
      ∀ u ∈ uids, ∀ p, fetch u = Except.ok p →
        hasMsg (syncLoop sha recent fetch aid db cur tot uids).1.emails
          p.message_id
  | [], _, _, _, _, u, hu, _, _ => absurd hu (by simp)
  | w :: rest, db, cur, tot, hnd, u, hu, p, hp => by
    rw [syncLoop]
    cases hf : fetch w with
    | error e =>
      have hnd' : (successMids fetch rest).Nodup := by
        rw [successMids, List.filterMap_cons, hf] at hnd
        exact hnd
      rcases List.mem_cons.mp hu with rfl | hu2
      · rw [hf] at hp
        exact absurd hp (by simp)
      · exact syncLoop_hasMsg sha recent fetch aid rest db (cur + 1) tot hnd' u hu2 p hp
    | ok pw =>
      have hmids : successMids fetch (w :: rest) =
          pw.message_id :: successMids fetch rest := by
        rw [successMids, List.filterMap_cons, hf]
        rfl
      rw [hmids] at hnd
      have hnotin := (List.nodup_cons.mp hnd).1
      have hnd' := (List.nodup_cons.mp hnd).2
      rcases List.mem_cons.mp hu with rfl | hu2
      · rw [hf] at hp
        have hppw : pw = p := (Except.ok.injEq _ _).mp hp
        subst hppw
        refine syncLoop_hasMsg_preserved sha recent fetch aid rest _ (cur + 1) tot
          pw.message_id (processMessage_hasMsg_new sha recent db aid u pw) ?_
        intro v hv q hq hqe
        exact hnotin (hqe ▸ mem_successMids fetch rest v hv q hq)
      · exact syncLoop_hasMsg sha recent fetch aid rest _ (cur + 1) tot hnd' u hu2 p hp

/-- C4 (amended): the run terminates successfully whatever per-message
failures occur, every successfully fetched UID's message is stored (so UIDs
after a failing one are still processed), and the final progress event
reports Completed with current = total = the number of enumerated UIDs
attempted — failed messages included, they do not reduce the reported
count. -/
theorem C4_fault_isolation (sha : List Nat → String)
    (recent : Option String → Bool) (fetch : Nat → Except String ParsedEmail)
    (aid : Nat) (db : Db) (uids : List Nat)
    (hnd : (successMids fetch uids).Nodup) :
    (syncRun sha recent fetch aid db uids).2.2 =
      { account_id := aid, current := uids.length, total := uids.length,
        status := "completed" } ∧
    (syncRun sha recent fetch aid db uids).2.1.getLast? = some
      { account_id := aid, current := uids.length, total := uids.length,
        status := SyncStatus.completed } ∧
    ∀ u ∈ uids, ∀ p, fetch u = Except.ok p →
      hasMsg (syncRun sha recent fetch aid db uids).1.emails p.message_id := by
  refine ⟨rfl, ?_, ?_⟩
  · exact List.getLast?_concat _
  · intro u hu p hp
    exact syncLoop_hasMsg sha recent fetch aid uids db 0 uids.length hnd u hu p hp

/-- C4 witness: in the 41/42/43 run with UID 42 failing, UID 43 — after the
failure — is still stored. -/
theorem C4_fault_isolation_witness :
    (successMids fetchMissing42 [41, 42, 43]).Nodup ∧
    hasMsg run42.1.emails "<m43@x>" := by
  refine ⟨by decide, ?_⟩
  exact (C4_fault_isolation (fun _ => "hash") (fun _ => true) fetchMissing42 1
    oneAccountDb [41, 42, 43] (by decide)).2.2 43 (by decide) _ rfl

/-- The per-message pipeline preserves "every row has a thread key", since
the inserted row always stores the derived key and classification only
rewrites the project column. -/
theorem allThreaded_processMessage (sha : List Nat → String)
    (recent : Option String → Bool) (db : Db) (aid uid : Nat)
    (parsed : ParsedEmail) (h : allThreaded db.emails) :
    allThreaded (processMessage sha recent db aid uid parsed).emails := by
  obtain ⟨f, hf, heq⟩ := processMessage_emails sha recent db aid uid parsed
  rw [heq]
  intro e he
  obtain ⟨e0, he0, rfl⟩ := List.mem_map.mp he
  rw [(hf e0).2]
  rcases List.mem_append.mp he0 with h1 | h1
  · exact h e0 (List.mem_of_mem_filter h1)
  · rw [List.mem_singleton.mp h1]
    rfl

/-- The sync loop preserves "every row has a thread key". -/
theorem allThreaded_syncLoop (sha : List Nat → String)
    (recent : Option String → Bool) (fetch : Nat → Except String ParsedEmail)
    (aid : Nat) :
    ∀ (uids : List Nat) (db : Db) (cur tot : Nat), allThreaded db.emails →
      allThreaded (syncLoop sha recent fetch aid db cur tot uids).1.emails
  | [], _, _, _, h => h
  | u :: rest, db, cur, tot, h => by
    rw [syncLoop]
    cases hf : fetch u with
    | error e => exact allThreaded_syncLoop sha recent fetch aid rest db (cur + 1) tot h
    | ok p =>
      exact allThreaded_syncLoop sha recent fetch aid rest _ (cur + 1) tot
        (allThreaded_processMessage sha recent db aid u p h)

/-- When every stored email has a thread key, the assembled timeline has no
top-level standalone message event. -/
theorem timeline_no_standalone (db : Db) (pid : Nat)
    (h : allThreaded db.emails) :
    ∀ ev ∈ get_timeline db pid, isEmailEvent ev = false := by
  intro ev hev
  have hev' := (mem_sortLe _ _ _).mp hev
  rw [timelineEventsUnsorted] at hev'
  rcases List.mem_append.mp hev' with h1 | h2
  · rcases List.mem_append.mp h1 with hm | ht
    · obtain ⟨m, _, rfl⟩ := List.mem_map.mp hm
      rfl
    · obtain ⟨tid, _, rfl⟩ := List.mem_map.mp ht
      rfl
  · obtain ⟨e, he, rfl⟩ := List.mem_map.mp h2
    exfalso
    have he1 := List.mem_of_mem_filter he
    have he2 := List.of_mem_filter he
    obtain ⟨row, hrow, rfl⟩ := List.mem_map.mp he1
    have hrow2 : row ∈ db.emails :=
      List.mem_of_mem_filter ((mem_sortLe _ _ _).mp hrow)
    have hsome := h row hrow2
    simp [hsome] at he2

/-- C10: the row saved by the sync engine unconditionally stores the derived
thread key; the per-message pipeline and the whole sync run keep every
stored message's thread key non-NULL; and over such a store the timeline's
standalone-message partition stays empty (no top-level message event). -/
theorem C10_sync_messages_always_threaded (sha : List Nat → String)
    (recent : Option String → Bool) (fetch : Nat → Except String ParsedEmail)
    (db : Db) (aid uid pid : Nat) (uids : List Nat) (parsed : ParsedEmail)
    (h : allThreaded db.emails) :
    (save_email_row db.nextEmailId aid uid parsed).thread_id =
      some (generate_thread_id parsed) ∧
    allThreaded (processMessage sha recent db aid uid parsed).emails ∧
    allThreaded (syncRun sha recent fetch aid db uids).1.emails ∧
    ∀ ev ∈ get_timeline db pid, isEmailEvent ev = false :=
  ⟨rfl, allThreaded_processMessage sha recent db aid uid parsed h,
   allThreaded_syncLoop sha recent fetch aid uids db 0 uids.length h,
   timeline_no_standalone db pid h⟩

/-- C10 witness: starting from the empty store, the processed PDF email is
stored with its derived thread key and the store stays fully threaded. -/
theorem C10_sync_messages_always_threaded_witness :
    allThreaded oneAccountDb.emails ∧
    (save_email_row oneAccountDb.nextEmailId 1 7 pdfEmail).thread_id =
      some (generate_thread_id pdfEmail) ∧
    allThreaded pdfAfter.emails := by
  have hinit : allThreaded oneAccountDb.emails := by
    intro e he
    exact absurd he (by simp [oneAccountDb])
  have h := C10_sync_messages_always_threaded (fun _ => "hash") (fun _ => true)
    fetchMissing42 oneAccountDb 1 7 1 [41] pdfEmail hinit
  exact ⟨hinit, h.1, h.2.1⟩

end ThreadLine
